import Mathlib

/-!
# Verification of the essspectroscopy kinematics-conversion core

Shallow embedding of the essspectroscopy reduction core (BIFROST indirect
geometry spectroscopy): detector-pixel scattering kinematics, the
time-of-flight lookup table with frame unwrapping, the chopper-cascade
simulation grid, chopper preprocessing from the two lookup-table notebooks,
and the quantity-graph engine.  Machine reals are modelled as exact
rationals; the parts of the package whose Python modules are not shipped in
this snapshot (only the notebooks and developer docs that call them are) are
modelled from the specification, marked `Modelled from the spec:` below.
-/

namespace Spectroscopy

/-! ## 3-vectors over ℚ -/

structure Vec3 where
  x : ℚ
  y : ℚ
  z : ℚ
deriving DecidableEq, Repr

instance : Add Vec3 := ⟨fun a b => ⟨a.x + b.x, a.y + b.y, a.z + b.z⟩⟩

instance : Sub Vec3 := ⟨fun a b => ⟨a.x - b.x, a.y - b.y, a.z - b.z⟩⟩

/-- Squared Euclidean norm of a 3-vector. -/
def Vec3.normSq (v : Vec3) : ℚ := v.x ^ 2 + v.y ^ 2 + v.z ^ 2

@[simp] theorem Vec3.add_def (a b : Vec3) :
    a + b = ⟨a.x + b.x, a.y + b.y, a.z + b.z⟩ := rfl

@[simp] theorem Vec3.sub_def (a b : Vec3) :
    a - b = ⟨a.x - b.x, a.y - b.y, a.z - b.z⟩ := rfl

/-! ## Scattering kinematics (per detector pixel) -/

/-- Modelled from the spec: the kinematics calculator's sample-to-detector
vector (the Python module `ess.spectroscopy.indirect` implementing it is not
in this snapshot; the developer issue log and spec fix its form).  With the
sample at the origin, the analyzer at position `A` and the
analyzer-to-detector vector `D`, the sample-to-detector vector is `A + D`
(the historical bug used `A - D`). -/
def sample_to_detector (A D : Vec3) : Vec3 := A + D

/-- A point on the beam axis (taken as the z axis) at distance `a` from the
sample. -/
def beamAxisVec (a : ℚ) : Vec3 := ⟨0, 0, a⟩

/-- Modelled from the spec: the per-event output record (`EnergyData`)
produced by the reduction; carries energy transfer, both momentum-transfer
vectors and the rotation-angle provenance. -/
structure EnergyData where
  energy_transfer : ℚ
  lab_momentum_transfer : Vec3
  sample_table_momentum_transfer : Vec3
  a3 : ℚ
  a4 : ℚ
deriving DecidableEq, Repr

/-- A 3×3 matrix over ℚ, rows listed explicitly. -/
structure Mat3 where
  r00 : ℚ
  r01 : ℚ
  r02 : ℚ
  r10 : ℚ
  r11 : ℚ
  r12 : ℚ
  r20 : ℚ
  r21 : ℚ
  r22 : ℚ

/-- Apply a 3×3 matrix to a vector. -/
def Mat3.apply (m : Mat3) (v : Vec3) : Vec3 :=
  ⟨m.r00 * v.x + m.r01 * v.y + m.r02 * v.z,
   m.r10 * v.x + m.r11 * v.y + m.r12 * v.z,
   m.r20 * v.x + m.r21 * v.y + m.r22 * v.z⟩

/-- Rotation matrix about the vertical (y) instrument axis for an angle whose
cosine is `c` and sine is `s`. -/
def rotYMat (c s : ℚ) : Mat3 :=
  ⟨c, 0, s, 0, 1, 0, -s, 0, c⟩

/-- Rotation about the vertical (y) axis, written out component-wise, for an
angle with cosine `c` and sine `s`; used as the spec-side formulation of
"rotated by the negative of a3 about the vertical axis" (apply it with the
cosine of a3 and the negated sine of a3). -/
def rotAboutVertical (c s : ℚ) (v : Vec3) : Vec3 :=
  ⟨c * v.x + s * v.z, v.y, -s * v.x + c * v.z⟩

/-- Modelled from the spec: the per-event conversion step of the kinematics
calculator (Python module absent from this snapshot).  Inputs: incident and
final energies `ei`, `ef`, incident and final wavevectors `ki`, `kf`, the
sample-table angle a3 given by its cosine `ca3` and sine `sa3` together with
its raw value `a3v`, and the detector-bank angle `a4v`.  Energy transfer is
incident minus final energy; lab-frame momentum transfer is `ki - kf`; the
sample-table-frame momentum transfer rotates the lab-frame one by the
negative of a3 about the vertical axis (cos(-a3) = ca3, sin(-a3) = -sa3);
both angles are kept as provenance. -/
def mkEnergyData (ei ef : ℚ) (ki kf : Vec3) (ca3 sa3 a3v a4v : ℚ) :
    EnergyData :=
  { energy_transfer := ei - ef
    lab_momentum_transfer := ki - kf
    sample_table_momentum_transfer := (rotYMat ca3 (-sa3)).apply (ki - kf)
    a3 := a3v
    a4 := a4v }

/-! ## Claim theorems: kinematics -/

/-- C1: the kinematics calculator computes the sample-to-detector vector as
`A + D`, never `A - D`; for a collinear geometry with the analyzer at
distance `a` on the beam axis and the detector a further `d` along the same
axis, the computed squared sample-to-detector distance is `(a + d) ^ 2`
(hence the distance is `a + d`), and it differs from `|a - d| ^ 2`, so the
computed distance is not `|a - d|`. -/
theorem c1_sample_to_detector_is_A_plus_D (a d : ℚ) (ha : 0 < a)
    (hd : 0 < d) :
    (∀ A D : Vec3, sample_to_detector A D = A + D) ∧
      sample_to_detector (beamAxisVec a) (beamAxisVec d) =
        beamAxisVec (a + d) ∧
      Vec3.normSq (sample_to_detector (beamAxisVec a) (beamAxisVec d)) =
        (a + d) ^ 2 ∧
      Vec3.normSq (sample_to_detector (beamAxisVec a) (beamAxisVec d)) ≠
        |a - d| ^ 2 := by
  refine ⟨fun A D => rfl, ?_, ?_, ?_⟩
  · simp [sample_to_detector, beamAxisVec]
  · simp [sample_to_detector, beamAxisVec, Vec3.normSq]
  · have h1 : Vec3.normSq (sample_to_detector (beamAxisVec a)
        (beamAxisVec d)) = (a + d) ^ 2 := by
      simp [sample_to_detector, beamAxisVec, Vec3.normSq]
    rw [h1, sq_abs]
    intro h
    nlinarith [sq_nonneg (a - d), sq_nonneg (a + d)]

/-- Witness for C1 at the concrete collinear geometry a = 1, d = 2. -/
theorem c1_sample_to_detector_is_A_plus_D_witness :
    Vec3.normSq (sample_to_detector (beamAxisVec 1) (beamAxisVec 2)) =
        (1 + 2 : ℚ) ^ 2 ∧
      Vec3.normSq (sample_to_detector (beamAxisVec 1) (beamAxisVec 2)) ≠
        |(1 : ℚ) - 2| ^ 2 :=
  ⟨(c1_sample_to_detector_is_A_plus_D 1 2 (by decide) (by decide)).2.2.1,
   (c1_sample_to_detector_is_A_plus_D 1 2 (by decide) (by decide)).2.2.2⟩

/-- C3: for every converted event, the energy transfer recorded in the
output equals incident energy minus final energy, and for any elastic event
(incident energy equal to final energy) the computed energy transfer is
exactly zero. -/
theorem c3_energy_transfer (ei ef : ℚ) (ki kf : Vec3)
    (ca3 sa3 a3v a4v : ℚ) :
    (mkEnergyData ei ef ki kf ca3 sa3 a3v a4v).energy_transfer = ei - ef ∧
      (ei = ef →
        (mkEnergyData ei ef ki kf ca3 sa3 a3v a4v).energy_transfer = 0) := by
  constructor
  · rfl
  · intro helastic
    simp [mkEnergyData, helastic]

/-- Witness for C3 at a concrete elastic event (ei = ef = 5). -/
theorem c3_energy_transfer_witness :
    (mkEnergyData 5 5 ⟨1, 0, 0⟩ ⟨0, 1, 0⟩ 1 0 0 0).energy_transfer =
        (5 : ℚ) - 5 ∧
      (mkEnergyData 5 5 ⟨1, 0, 0⟩ ⟨0, 1, 0⟩ 1 0 0 0).energy_transfer = 0 :=
  ⟨(c3_energy_transfer 5 5 ⟨1, 0, 0⟩ ⟨0, 1, 0⟩ 1 0 0 0).1,
   (c3_energy_transfer 5 5 ⟨1, 0, 0⟩ ⟨0, 1, 0⟩ 1 0 0 0).2 rfl⟩

/-- C4: for every converted event, the sample-table-frame momentum transfer
equals the lab-frame momentum transfer rotated by the negative of the
sample-table angle a3 about the vertical axis (for a3 with cosine `ca3` and
sine `sa3`, the negative angle has cosine `ca3` and sine `-sa3`), and the
output record carries the lab-frame momentum transfer `ki - kf` together
with the a3 and a4 angles as provenance. -/
theorem c4_sample_table_momentum_transfer (ei ef : ℚ) (ki kf : Vec3)
    (ca3 sa3 a3v a4v : ℚ) :
    (mkEnergyData ei ef ki kf ca3 sa3 a3v a4v).sample_table_momentum_transfer
        = rotAboutVertical ca3 (-sa3)
            ((mkEnergyData ei ef ki kf ca3 sa3 a3v a4v).lab_momentum_transfer)
      ∧ (mkEnergyData ei ef ki kf ca3 sa3 a3v a4v).lab_momentum_transfer =
          ki - kf
      ∧ (mkEnergyData ei ef ki kf ca3 sa3 a3v a4v).a3 = a3v
      ∧ (mkEnergyData ei ef ki kf ca3 sa3 a3v a4v).a4 = a4v := by
  refine ⟨?_, rfl, rfl, rfl⟩
  simp [mkEnergyData, rotAboutVertical, Mat3.apply, rotYMat]

/-! ## Time-of-flight lookup table and frame unwrapping -/

/-- Modelled from the spec: the persisted Lookup Table (built by
`TofLookupTableWorkflow`, whose module is not in this snapshot): a grid over
(distance bucket, frame-relative time bucket) of resolved time-of-flight
values, `none` marking invalid cells, together with the covered distance
range, the distance and time resolutions, and the source pulse period. -/
structure LookupTable where
  lMin : ℚ
  lMax : ℚ
  dRes : ℚ
  period : ℚ
  tRes : ℚ
  cells : List (List (Option ℚ))
deriving DecidableEq, Repr

/-- The frame-relative remainder of a timestamp `t` modulo the pulse period
`p`. -/
def fracMod (t p : ℚ) : ℚ := t - p * ⌊t / p⌋

/-- Modelled from the spec: frame unwrapping.  Locate the grid cell matching
(distance, frame-relative time); a distance outside the covered range
`[lMin, lMax]`, an index outside the grid, or an invalid cell makes the
unwrap fail (`none`) rather than return a wrong value. -/
def LookupTable.unwrap (tab : LookupTable) (d t : ℚ) : Option ℚ :=
  if d < tab.lMin ∨ tab.lMax < d then none
  else
    let i := (⌊(d - tab.lMin) / tab.dRes⌋).toNat
    let j := (⌊fracMod t tab.period / tab.tRes⌋).toNat
    match tab.cells.get? i with
    | none => none
    | some row =>
      match row.get? j with
      | none => none
      | some c => c

/-- Unwrap a whole list of (distance, frame-relative time) queries against a
fixed table. -/
def unwrapAll (tab : LookupTable) (qs : List (ℚ × ℚ)) : List (Option ℚ) :=
  qs.map fun q => tab.unwrap q.1 q.2

/-- A raw detection event: detector pixel identifier, total flight distance
and frame-relative timestamp. -/
structure Event where
  pixel : ℕ
  distance : ℚ
  time : ℚ
deriving DecidableEq, Repr

/-- Modelled from the spec: event-level conversion with rejection
accounting.  Each event is unwrapped against the table; a successful unwrap
produces one converted record (pixel, time of flight), a failed one drops
the event and counts it in the rejection summary.  The run always completes
with a converted list and a rejection count. -/
def processEvents (tab : LookupTable) : List Event → List (ℕ × ℚ) × ℕ
  | [] => ([], 0)
  | e :: rest =>
    let r := processEvents tab rest
    match tab.unwrap e.distance e.time with
    | some tof => ((e.pixel, tof) :: r.1, r.2)
    | none => (r.1, r.2 + 1)

/-- Every event is either converted or rejected; no event is lost and the
run completes. -/
theorem processEvents_accounting (tab : LookupTable) (evs : List Event) :
    (processEvents tab evs).1.length + (processEvents tab evs).2 =
      evs.length := by
  induction evs with
  | nil => rfl
  | cons e rest ih =>
    simp only [processEvents]
    cases tab.unwrap e.distance e.time with
    | none =>
      simp only [List.length_cons, ← ih]
      omega
    | some tof =>
      simp only [List.length_cons, List.length, ← ih]
      omega

/-! ## Serialization of the lookup table -/

/-- Encode one grid cell for the persisted format (validity flag plus
value). -/
def encodeCell : Option ℚ → Bool × ℚ
  | none => (false, 0)
  | some v => (true, v)

/-- Decode one grid cell from the persisted format. -/
def decodeCell : Bool × ℚ → Option ℚ
  | (false, _) => none
  | (true, v) => some v

/-- Modelled from the spec: the self-describing persisted form of the
Lookup Table (`save_hdf5` output): scalar parameters plus flat arrays of
(validity flag, value) cells. -/
structure SerializedTable where
  lMin : ℚ
  lMax : ℚ
  dRes : ℚ
  period : ℚ
  tRes : ℚ
  rows : List (List (Bool × ℚ))
deriving DecidableEq, Repr

/-- Serialize a lookup table to the persisted format. -/
def LookupTable.serialize (tab : LookupTable) : SerializedTable :=
  ⟨tab.lMin, tab.lMax, tab.dRes, tab.period, tab.tRes,
   tab.cells.map fun row => row.map encodeCell⟩

/-- Reload a lookup table from the persisted format. -/
def SerializedTable.load (s : SerializedTable) : LookupTable :=
  ⟨s.lMin, s.lMax, s.dRes, s.period, s.tRes,
   s.rows.map fun row => row.map decodeCell⟩

theorem decodeCell_encodeCell (c : Option ℚ) :
    decodeCell (encodeCell c) = c := by
  cases c <;> rfl

theorem load_serialize (tab : LookupTable) :
    tab.serialize.load = tab := by
  cases tab with
  | mk lMin lMax dRes period tRes cells =>
    have hid : decodeCell ∘ encodeCell = id := funext decodeCell_encodeCell
    simp [LookupTable.serialize, SerializedTable.load, List.map_map, hid]

/-! ## Claim theorems: frame unwrapping, rejection, persistence -/

/-- C2: for a fixed Lookup Table, frame unwrapping is a pure deterministic
function of (distance, frame-relative time): any two calls of a query
stream with identical inputs return identical unwrapped results. -/
theorem c2_unwrap_deterministic (tab : LookupTable) (qs : List (ℚ × ℚ))
    (i j : ℕ) (h : qs.get? i = qs.get? j) :
    (unwrapAll tab qs).get? i = (unwrapAll tab qs).get? j := by
  simp only [unwrapAll, List.get?_map, h]

/-- Witness for C2: two identical queries in one stream against a concrete
one-cell table give identical results. -/
theorem c2_unwrap_deterministic_witness :
    (unwrapAll ⟨0, 10, 1, 5, 1, [[some 3]]⟩ [(1, 2), (1, 2)]).get? 0 =
      (unwrapAll ⟨0, 10, 1, 5, 1, [[some 3]]⟩ [(1, 2), (1, 2)]).get? 1 :=
  c2_unwrap_deterministic ⟨0, 10, 1, 5, 1, [[some 3]]⟩ [(1, 2), (1, 2)] 0 1
    rfl

/-- C6: feeding one event whose flight distance lies outside the covered
range [lMin, lMax] produces exactly one rejected event and zero converted
events for that pixel (the event is dropped, never defaulted), and in
general every event of a run is either converted or counted in the
rejection summary, so the run completes. -/
theorem c6_rejection_accounting (tab : LookupTable) (ev : Event)
    (h : ev.distance < tab.lMin ∨ tab.lMax < ev.distance) :
    processEvents tab [ev] = ([], 1) ∧
      ∀ evs : List Event,
        (processEvents tab evs).1.length + (processEvents tab evs).2 =
          evs.length := by
  refine ⟨?_, processEvents_accounting tab⟩
  simp [processEvents, LookupTable.unwrap, h]

/-- Witness for C6: an event at distance 20 against a table covering
distances 0 to 10 is rejected, with zero converted events. -/
theorem c6_rejection_accounting_witness :
    processEvents ⟨0, 10, 1, 5, 1, [[some 3]]⟩ [⟨7, 20, 2⟩] = ([], 1) :=
  (c6_rejection_accounting ⟨0, 10, 1, 5, 1, [[some 3]]⟩ ⟨7, 20, 2⟩
    (Or.inr (by decide))).1

/-- C7: serializing a Lookup Table to its persisted format and reloading it
yields a table whose unwrap result agrees with the original in-memory table
on every probe pair (distance, frame-relative time). -/
theorem c7_persistence_roundtrip (tab : LookupTable) (d t : ℚ) :
    tab.serialize.load.unwrap d t = tab.unwrap d t := by
  rw [load_serialize]

/-! ## Distance range for building the lookup table

Translated from the two lookup-table notebooks.  In
`docs/user-guide/bifrost/bifrost-make-tof-lookup-table.ipynb`:
`l_min = l_monitor` and `l_max = beamline.coords['L1']`.  In
`tools/bifrost-make-tof-lookup-table.ipynb`:
`l_min = l_monitor - 0.1 m` and `l_max = l1 + 0.1 m`. -/

/-- The `l_min` of the docs notebook: the monitor's source-to-monitor
distance. -/
def lMinDocs (lMonitor : ℚ) : ℚ := lMonitor

/-- The `l_max` of the docs notebook: the source-to-sample distance
`L1`. -/
def lMaxDocs (l1 : ℚ) : ℚ := l1

/-- The `l_min` of the tools notebook: monitor distance minus a 0.1 m
margin. -/
def lMinTool (lMonitor : ℚ) : ℚ := lMonitor - 1 / 10

/-- The `l_max` of the tools notebook: `l1` plus a 0.1 m margin. -/
def lMaxTool (l1 : ℚ) : ℚ := l1 + 1 / 10

/-- A distance lies inside a table's covered range. -/
def coveredBy (lo hi d : ℚ) : Prop := lo ≤ d ∧ d ≤ hi

/-! ## Chopper preprocessing

Translated from `parse_choppers` in `tools/bifrost-make-tof-lookup-table.ipynb`
and `extract_chopper_plateau` in
`docs/user-guide/bifrost/bifrost-make-tof-lookup-table.ipynb`. -/

/-- A raw chopper record as read from the NeXus file: time series for
rotation speed and phase, plus static geometry fields. -/
structure RawChopper where
  rotation_speed : List ℚ
  phase : List ℚ
  position : Vec3
  slit_edges : List ℚ
  radius : ℚ
deriving DecidableEq, Repr

/-- A processed disk-chopper descriptor (the fields `DiskChopper.from_nexus`
consumes). -/
structure DiskChopperDesc where
  rotation_speed : ℚ
  phase : ℚ
  beam_position : ℚ
  position : Vec3
  slit_edges : List ℚ
  radius : ℚ
deriving DecidableEq, Repr

/-- Arithmetic mean of a recorded time series (`.data.mean()`). -/
def listMean (xs : List ℚ) : ℚ := xs.sum / xs.length

/-- Translation of `extract_chopper_plateau` (docs notebook): copy the raw
record,
replace the rotation-speed and phase series by their means, set the beam
position to the constant 0 degrees, and keep every other field of the copy
unchanged. -/
def extract_chopper_plateau (c : RawChopper) : DiskChopperDesc :=
  { rotation_speed := listMean c.rotation_speed
    phase := listMean c.phase
    beam_position := 0
    position := c.position
    slit_edges := c.slit_edges
    radius := c.radius }

/-- The per-chopper body of `parse_choppers` in the tools notebook: as
`extract_chopper_plateau`, and additionally make the position relative to
the source (`chopper['position'] - source_position`). -/
def parse_chopper (source : Vec3) (c : RawChopper) : DiskChopperDesc :=
  { extract_chopper_plateau c with position := c.position - source }

/-- Translation of `parse_choppers` (tools notebook): loop over the raw
chopper group
(name/record pairs) and build a new group of processed descriptors; the raw
group is only read (the Python loop works on `chopper.copy()`). -/
def parse_choppers (source : Vec3) :
    List (ℕ × RawChopper) → List (ℕ × DiskChopperDesc)
  | [] => []
  | (n, c) :: rest => (n, parse_chopper source c) :: parse_choppers source rest

theorem parse_choppers_get (source : Vec3) (group : List (ℕ × RawChopper))
    (i : ℕ) (n : ℕ) (c : RawChopper) (h : group.get? i = some (n, c)) :
    (parse_choppers source group).get? i = some (n, parse_chopper source c) := by
  induction group generalizing i with
  | nil => simp at h
  | cons hd tl ih =>
    cases i with
    | zero =>
      obtain ⟨n0, c0⟩ := hd
      simp only [List.get?] at h
      cases h
      rfl
    | succ k =>
      obtain ⟨n0, c0⟩ := hd
      simp only [List.get?] at h
      exact ih k h

/-! ## Claim theorems: distance range and chopper preprocessing -/

/-- C5: given that the monitor sits before the sample
(`lMonitor ≤ l1`), the distance range over which the lookup table is built
covers both the normalization monitor's source-to-monitor distance and the
source-to-sample path, in the docs notebook (`[l_monitor, L1]`) as well as
in the tools notebook (`[l_monitor - 0.1, l1 + 0.1]`); these are the two
distances later presented for unwrapping. -/
theorem c5_distance_range_covers (lMonitor l1 : ℚ) (h : lMonitor ≤ l1) :
    coveredBy (lMinDocs lMonitor) (lMaxDocs l1) lMonitor ∧
      coveredBy (lMinDocs lMonitor) (lMaxDocs l1) l1 ∧
      coveredBy (lMinTool lMonitor) (lMaxTool l1) lMonitor ∧
      coveredBy (lMinTool lMonitor) (lMaxTool l1) l1 := by
  refine ⟨⟨le_refl _, h⟩, ⟨h, le_refl _⟩, ⟨?_, ?_⟩, ⟨?_, ?_⟩⟩ <;>
    simp only [lMinTool, lMaxTool] <;> linarith

/-- Witness for C5 at the BIFROST-like concrete distances
lMonitor = 25 m, l1 = 160 m. -/
theorem c5_distance_range_covers_witness :
    coveredBy (lMinDocs 25) (lMaxDocs 160) 25 ∧
      coveredBy (lMinDocs 25) (lMaxDocs 160) 160 ∧
      coveredBy (lMinTool 25) (lMaxTool 160) 25 ∧
      coveredBy (lMinTool 25) (lMaxTool 160) 160 :=
  c5_distance_range_covers 25 160 (by decide)

/-- C10: for every chopper in the raw group, the preprocessing step returns
a descriptor whose rotation speed and phase are the arithmetic means of the
recorded time series, whose beam position is the constant 0 degrees, and (in
the table-building tool) whose position is the raw position minus the source
position; all other fields are copied from the raw record unchanged, and the
docs-notebook variant keeps the raw position itself, the raw record being
only read. -/
theorem c10_chopper_preprocessing (source : Vec3)
    (group : List (ℕ × RawChopper)) (i : ℕ) (n : ℕ) (c : RawChopper)
    (h : group.get? i = some (n, c)) :
    (parse_choppers source group).get? i =
        some (n, parse_chopper source c) ∧
      (parse_chopper source c).rotation_speed = listMean c.rotation_speed ∧
      (parse_chopper source c).phase = listMean c.phase ∧
      (parse_chopper source c).beam_position = 0 ∧
      (parse_chopper source c).position = c.position - source ∧
      (parse_chopper source c).slit_edges = c.slit_edges ∧
      (parse_chopper source c).radius = c.radius ∧
      (extract_chopper_plateau c).rotation_speed = listMean c.rotation_speed ∧
      (extract_chopper_plateau c).phase = listMean c.phase ∧
      (extract_chopper_plateau c).beam_position = 0 ∧
      (extract_chopper_plateau c).position = c.position :=
  ⟨parse_choppers_get source group i n c h, rfl, rfl, rfl, rfl, rfl, rfl,
   rfl, rfl, rfl, rfl⟩

/-- Witness for C10 on a concrete one-chopper group with a two-sample
rotation-speed series. -/
theorem c10_chopper_preprocessing_witness :
    (parse_choppers ⟨0, 0, 1⟩
          [(0, ⟨[14, 16], [10, 10], ⟨0, 0, 7⟩, [0, 170], 1⟩)]).get? 0 =
        some (0, parse_chopper ⟨0, 0, 1⟩
          ⟨[14, 16], [10, 10], ⟨0, 0, 7⟩, [0, 170], 1⟩) ∧
      (parse_chopper ⟨0, 0, 1⟩
          ⟨[14, 16], [10, 10], ⟨0, 0, 7⟩, [0, 170], 1⟩).position =
        Vec3.mk 0 0 7 - Vec3.mk 0 0 1 :=
  ⟨(c10_chopper_preprocessing ⟨0, 0, 1⟩
      [(0, ⟨[14, 16], [10, 10], ⟨0, 0, 7⟩, [0, 170], 1⟩)] 0 0
      ⟨[14, 16], [10, 10], ⟨0, 0, 7⟩, [0, 170], 1⟩ rfl).1,
   (c10_chopper_preprocessing ⟨0, 0, 1⟩
      [(0, ⟨[14, 16], [10, 10], ⟨0, 0, 7⟩, [0, 170], 1⟩)] 0 0
      ⟨[14, 16], [10, 10], ⟨0, 0, 7⟩, [0, 170], 1⟩ rfl).2.2.2.2.1⟩

/-! ## Chopper-cascade simulation grid -/

/-- Modelled from the spec: one rotating disk chopper of the simulated
cascade: rotation frequency (turns per unit time), phase offset (degrees),
axial position along the beam (distance from the source), and open angular
windows (start and end angle in degrees). -/
structure SimChopper where
  freq : ℚ
  phase : ℚ
  position : ℚ
  windows : List (ℚ × ℚ)
deriving DecidableEq, Repr

/-- Whether the chopper aperture is open at time `t`: its disk angle,
taken modulo 360 degrees, lies in one of the open windows. -/
def SimChopper.openAt (c : SimChopper) (t : ℚ) : Bool :=
  let ang := fracMod (360 * c.freq * t + c.phase) 360
  c.windows.any fun w => decide (w.1 ≤ ang) && decide (ang < w.2)

/-- Modelled from the spec: the stochastically sampled neutron population,
as a fixed stream: neutron `k` has emission time `emit k` and reciprocal
speed `invSpeed k` (time per unit distance); a build with `n` neutrons uses
the first `n` entries of the stream. -/
structure NeutronStream where
  emit : ℕ → ℚ
  invSpeed : ℕ → ℚ

/-- Arrival time of neutron `k` at distance `d` from the source. -/
def NeutronStream.arrival (s : NeutronStream) (k : ℕ) (d : ℚ) : ℚ :=
  s.emit k + s.invSpeed k * d

/-- Neutron `k` survives the cascade: every chopper is open when the
neutron reaches it. -/
def survives (cs : List SimChopper) (s : NeutronStream) (k : ℕ) : Bool :=
  cs.all fun c => c.openAt (s.arrival k c.position)

/-- The (distance, frame-relative time) grid the surviving samples are
binned into. -/
structure SimGrid where
  lMin : ℚ
  dRes : ℚ
  period : ℚ
  tRes : ℚ
  nD : ℕ
  nT : ℕ
deriving DecidableEq, Repr

/-- Distance of grid row `i`. -/
def SimGrid.rowDistance (g : SimGrid) (i : ℕ) : ℚ := g.lMin + g.dRes * i

/-- Time bucket that neutron `k` falls into at grid row `i`: its arrival
time at the row's distance, reduced modulo the pulse period, divided by the
time resolution. -/
def SimGrid.timeBucket (g : SimGrid) (s : NeutronStream) (k i : ℕ) : ℕ :=
  (⌊fracMod (s.arrival k (g.rowDistance i)) g.period / g.tRes⌋).toNat

/-- Modelled from the spec: the set of grid cells marked valid after a
build with `n` simulated neutrons — a cell `(i, j)` is valid exactly when
some neutron among the first `n` survives the cascade and is binned into
it; all other cells are marked invalid. -/
def validCells (cs : List SimChopper) (g : SimGrid) (s : NeutronStream)
    (n : ℕ) : Finset (ℕ × ℕ) :=
  (Finset.range g.nD ×ˢ Finset.range g.nT).filter fun ij =>
    ∃ k ∈ Finset.range n, survives cs s k = true ∧
      g.timeBucket s k ij.1 = ij.2

/-- Fraction of the grid marked valid after a build with `n` neutrons. -/
def validFraction (cs : List SimChopper) (g : SimGrid) (s : NeutronStream)
    (n : ℕ) : ℚ :=
  ((validCells cs g s n).card : ℚ) / ((g.nD * g.nT : ℕ) : ℚ)

theorem validCells_mono (cs : List SimChopper) (g : SimGrid)
    (s : NeutronStream) (n₁ n₂ : ℕ) (h : n₁ ≤ n₂) :
    validCells cs g s n₁ ⊆ validCells cs g s n₂ := by
  intro ij hij
  simp only [validCells, Finset.mem_filter] at hij ⊢
  obtain ⟨hmem, k, hk, hsurv, hbin⟩ := hij
  refine ⟨hmem, k, ?_, hsurv, hbin⟩
  simp only [Finset.mem_range] at hk ⊢
  omega

/-! ## Claim theorem: Monte Carlo coverage monotonicity -/

/-- C9: for two builds over the same chopper cascade, grid and neutron
stream that differ only in the simulated neutron count, the larger build
marks at least as many cells valid as the smaller build, hence a fraction
of the grid greater than or equal to the smaller build's; and a cell is
marked valid exactly when some simulated neutron survives into it. -/
theorem c9_coverage_monotonicity (cs : List SimChopper) (g : SimGrid)
    (s : NeutronStream) (n₁ n₂ : ℕ) (h : n₁ ≤ n₂) :
    (validCells cs g s n₁).card ≤ (validCells cs g s n₂).card ∧
      validFraction cs g s n₁ ≤ validFraction cs g s n₂ ∧
      ∀ n i j, (i, j) ∈ validCells cs g s n ↔
        (i < g.nD ∧ j < g.nT ∧
          ∃ k < n, survives cs s k = true ∧ g.timeBucket s k i = j) := by
  have hcard : (validCells cs g s n₁).card ≤ (validCells cs g s n₂).card :=
    Finset.card_le_card (validCells_mono cs g s n₁ n₂ h)
  refine ⟨hcard, ?_, ?_⟩
  · unfold validFraction
    rcases eq_or_lt_of_le
        (show (0 : ℚ) ≤ ((g.nD * g.nT : ℕ) : ℚ) by positivity) with h0 | h0
    · rw [← h0, div_zero, div_zero]
    · exact (div_le_div_iff_of_pos_right h0).mpr (Nat.cast_le.mpr hcard)
  · intro n i j
    simp only [validCells, Finset.mem_filter, Finset.mem_product,
      Finset.mem_range]
    constructor
    · rintro ⟨⟨hi, hj⟩, k, hk, hs', hb⟩
      exact ⟨hi, hj, k, by simpa using hk, hs', hb⟩
    · rintro ⟨hi, hj, k, hk, hs', hb⟩
      exact ⟨⟨hi, hj⟩, k, by simpa using hk, hs', hb⟩

/-- Witness for C9 at a concrete cascade-free build: stream with emission
time k and unit reciprocal speed, 2×2 grid, neutron counts 1 ≤ 2. -/
theorem c9_coverage_monotonicity_witness :
    (validCells [] ⟨0, 1, 10, 1, 2, 2⟩ ⟨fun k => (k : ℚ), fun _ => 1⟩ 1).card
      ≤
      (validCells [] ⟨0, 1, 10, 1, 2, 2⟩ ⟨fun k => (k : ℚ), fun _ => 1⟩
        2).card :=
  (c9_coverage_monotonicity [] ⟨0, 1, 10, 1, 2, 2⟩
    ⟨fun k => (k : ℚ), fun _ => 1⟩ 1 2 (by decide)).1

/-! ## Quantity graph engine -/

/-- Identity of a quantity node. -/
abbrev Qid := ℕ

/-- Modelled from the spec: the Quantity Graph Engine's error taxonomy:
no provider for a required input type, a cycle in the declared dependency
relation, or a provider's internal failure wrapped together with the
identity of the failing quantity. -/
inductive EngineError where
  | missingProvider (q : Qid)
  | cyclicDependency
  | computation (q : Qid) (msg : ℕ)
deriving DecidableEq, Repr

/-- Modelled from the spec: a provider: a pure function from declared input
quantities to one produced quantity; failures are reported as error
codes. -/
structure Provider where
  out : Qid
  inputs : List Qid
  impl : List ℚ → Except ℕ ℚ

/-- The provider registered for quantity `q`, if any. -/
def findProvider (reg : List Provider) (q : Qid) : Option Provider :=
  reg.find? fun p => p.out == q

/-- Identifiers of the already-known input values. -/
def knownIds (known : List (Qid × ℚ)) : List Qid := known.map Prod.fst

/-- The declared direct dependencies of quantity `q`: none if the value is
already known, otherwise the registered provider's declared inputs. -/
def neighbors (reg : List Provider) (known : List (Qid × ℚ)) (q : Qid) :
    List Qid :=
  if q ∈ knownIds known then []
  else
    match findProvider reg q with
    | some p => p.inputs
    | none => []

/-- Append a quantity to a worklist unless it is already present. -/
def insertIfAbsent (s : List Qid) (q : Qid) : List Qid :=
  if q ∈ s then s else s ++ [q]

/-- One expansion step of the transitive-dependency closure. -/
def expandOnce (reg : List Provider) (known : List (Qid × ℚ))
    (s : List Qid) : List Qid :=
  (s.flatMap (neighbors reg known)).foldl insertIfAbsent s

/-- Fuel-bounded reachability: iterate the expansion step. -/
def reachList (reg : List Provider) (known : List (Qid × ℚ)) :
    ℕ → List Qid → List Qid
  | 0, s => s
  | n + 1, s => reachList reg known n (expandOnce reg known s)

/-- All quantities reachable from a seed list through declared
dependencies. -/
def reachableFrom (reg : List Provider) (known : List (Qid × ℚ))
    (start : List Qid) : List Qid :=
  reachList reg known (reg.length + 1) start

/-- The transitive dependency closure of the requested target quantity. -/
def requiredList (reg : List Provider) (known : List (Qid × ℚ))
    (target : Qid) : List Qid :=
  reachableFrom reg known [target]

/-- A required quantity with neither a known value nor a provider. -/
def isMissing (reg : List Provider) (known : List (Qid × ℚ)) (q : Qid) :
    Bool :=
  decide (q ∉ knownIds known) && (findProvider reg q).isNone

/-- The declared dependency relation restricted to the required set
contains a cycle: some required quantity is reachable from its own declared
inputs. -/
def hasCycle (reg : List Provider) (known : List (Qid × ℚ))
    (req : List Qid) : Bool :=
  req.any fun q => decide (q ∈ reachableFrom reg known (neighbors reg known q))

/-- Modelled from the spec: pipeline construction: compute the transitive
dependency closure of the request, fail with `missingProvider` on the first
required quantity that has neither a value nor a provider, fail with
`cyclicDependency` when the declared dependency relation contains a cycle,
otherwise return an evaluation plan. -/
def construct (reg : List Provider) (known : List (Qid × ℚ))
    (target : Qid) : Except EngineError (List Qid) :=
  match (requiredList reg known target).find? (isMissing reg known) with
  | some q => .error (.missingProvider q)
  | none =>
    if hasCycle reg known (requiredList reg known target) then
      .error .cyclicDependency
    else .ok (requiredList reg known target).reverse

/-- Gather the cached values of a provider's declared inputs. -/
def gatherInputs (cache : List (Qid × ℚ)) (qs : List Qid) : List ℚ :=
  qs.filterMap fun q => (cache.find? fun e => e.1 == q).map Prod.snd

/-- Execute one provider against the cache; an internal failure is wrapped
as a `computation` error tagged with the produced quantity's identity. -/
def execProvider (cache : List (Qid × ℚ)) (p : Provider) :
    Except EngineError ℚ :=
  match p.impl (gatherInputs cache p.inputs) with
  | .error m => .error (.computation p.out m)
  | .ok v => .ok v

/-- Execute an evaluation plan, populating the cache. -/
def execPlan (reg : List Provider) (cache : List (Qid × ℚ)) :
    List Qid → Except EngineError (List (Qid × ℚ))
  | [] => .ok cache
  | q :: rest =>
    if q ∈ knownIds cache then execPlan reg cache rest
    else
      match findProvider reg q with
      | none => .error (.missingProvider q)
      | some p =>
        match execProvider cache p with
        | .error e => .error e
        | .ok v => execPlan reg ((q, v) :: cache) rest

/-- Modelled from the spec: a full pipeline run: construction first, then
plan execution, and only then the event-level conversion; construction
errors abort the run before any event-level result exists. -/
def runPipeline (reg : List Provider) (known : List (Qid × ℚ))
    (target : Qid) (tab : LookupTable) (events : List Event) :
    Except EngineError (List (Qid × ℚ) × (List (ℕ × ℚ) × ℕ)) :=
  match construct reg known target with
  | .error e => .error e
  | .ok plan =>
    match execPlan reg known plan with
    | .error e => .error e
    | .ok cache => .ok (cache, processEvents tab events)

theorem foldl_insertIfAbsent_append (l acc : List Qid) :
    ∃ t, l.foldl insertIfAbsent acc = acc ++ t := by
  induction l generalizing acc with
  | nil => exact ⟨[], by simp⟩
  | cons q l ih =>
    obtain ⟨t, ht⟩ := ih (insertIfAbsent acc q)
    by_cases h : q ∈ acc
    · exact ⟨t, by simpa [insertIfAbsent, h] using ht⟩
    · exact ⟨[q] ++ t, by simpa [insertIfAbsent, h] using ht⟩

theorem expandOnce_append (reg : List Provider) (known : List (Qid × ℚ))
    (s : List Qid) : ∃ t, expandOnce reg known s = s ++ t :=
  foldl_insertIfAbsent_append _ s

theorem reachList_append (reg : List Provider) (known : List (Qid × ℚ)) :
    ∀ (n : ℕ) (s : List Qid), ∃ t, reachList reg known n s = s ++ t := by
  intro n
  induction n with
  | zero => exact fun s => ⟨[], by simp [reachList]⟩
  | succ m ih =>
    intro s
    obtain ⟨u, hu⟩ := expandOnce_append reg known s
    obtain ⟨t, ht⟩ := ih (expandOnce reg known s)
    refine ⟨u ++ t, ?_⟩
    calc reachList reg known (m + 1) s
        = reachList reg known m (expandOnce reg known s) := rfl
      _ = expandOnce reg known s ++ t := ht
      _ = (s ++ u) ++ t := by rw [hu]
      _ = s ++ (u ++ t) := by rw [List.append_assoc]

theorem requiredList_cons (reg : List Provider) (known : List (Qid × ℚ))
    (target : Qid) :
    ∃ t, requiredList reg known target = target :: t := by
  obtain ⟨t, ht⟩ := reachList_append reg known (reg.length + 1) [target]
  exact ⟨t, by simpa [requiredList, reachableFrom] using ht⟩

/-! ## Claim theorem: graph engine error taxonomy -/

/-- C8: the Quantity Graph Engine fails with `missingProvider` when the
requested quantity has neither a known value nor a provider; fails with
`cyclicDependency` when the declared dependency relation on the required
set contains a cycle (in particular a required, unknown quantity whose
provider lists the quantity among its own inputs creates such a cycle);
wraps a provider's internal failure as a `computation` error tagged with
the failing quantity's identity; and every construction error surfaces
synchronously at pipeline construction — the run aborts with that error
before any event-level result is produced. -/
theorem c8_engine_errors (reg : List Provider) (known : List (Qid × ℚ))
    (target : Qid) (cache : List (Qid × ℚ)) (p : Provider) (m : ℕ)
    (q : Qid) (pq : Provider) (tab : LookupTable) (events : List Event)
    (e : EngineError) :
    (target ∉ knownIds known → findProvider reg target = none →
        construct reg known target = .error (.missingProvider target)) ∧
      ((requiredList reg known target).find? (isMissing reg known) = none →
        hasCycle reg known (requiredList reg known target) = true →
        construct reg known target = .error .cyclicDependency) ∧
      (findProvider reg q = some pq → q ∈ pq.inputs →
        q ∉ knownIds known → q ∈ requiredList reg known target →
        hasCycle reg known (requiredList reg known target) = true) ∧
      (p.impl (gatherInputs cache p.inputs) = .error m →
        execProvider cache p = .error (.computation p.out m)) ∧
      (construct reg known target = .error e →
        runPipeline reg known target tab events = .error e) := by
  refine ⟨?_, ?_, ?_, ?_, ?_⟩
  · intro h1 h2
    obtain ⟨t, ht⟩ := requiredList_cons reg known target
    have hmiss : isMissing reg known target = true := by
      simp [isMissing, h1, h2]
    simp only [construct, ht, List.find?_cons_of_pos _ hmiss]
  · intro h1 h2
    simp only [construct, h1, h2, if_true]
  · intro hfind hin hnk hreq
    have hn : neighbors reg known q = pq.inputs := by
      simp [neighbors, hnk, hfind]
    obtain ⟨t, ht⟩ :=
      reachList_append reg known (reg.length + 1) (neighbors reg known q)
    have hqmem : q ∈ reachableFrom reg known (neighbors reg known q) := by
      rw [reachableFrom, ht]
      exact List.mem_append_left t (hn ▸ hin)
    simp only [hasCycle, List.any_eq_true]
    exact ⟨q, hreq, decide_eq_true hqmem⟩
  · intro h
    simp [execProvider, h]
  · intro h
    simp [runPipeline, h]

/-- Witness for C8: concrete scenarios for each failure mode: an empty
registry misses the provider for quantity 0; a self-dependent provider for
quantity 0 triggers the cycle error; a provider for quantity 5 whose body
fails with code 3 is wrapped as a tagged computation error; and the
missing-provider construction error aborts a run before any event is
converted. -/
theorem c8_engine_errors_witness :
    construct [] [] 0 = .error (.missingProvider 0) ∧
      construct [⟨0, [0], fun _ => .ok 1⟩] [] 0 =
        .error .cyclicDependency ∧
      hasCycle [⟨0, [0], fun _ => .ok 1⟩] []
          (requiredList [⟨0, [0], fun _ => .ok 1⟩] [] 0) = true ∧
      execProvider [] ⟨5, [], fun _ => .error 3⟩ =
        .error (.computation 5 3) ∧
      runPipeline [] [] 0 ⟨0, 10, 1, 5, 1, [[some 3]]⟩ [⟨7, 2, 2⟩] =
        .error (.missingProvider 0) := by
  refine ⟨?_, ?_, ?_, ?_, ?_⟩
  · exact (c8_engine_errors [] [] 0 [] ⟨5, [], fun _ => .error 3⟩ 3 0
      ⟨0, [0], fun _ => .ok 1⟩ ⟨0, 10, 1, 5, 1, [[some 3]]⟩ []
      (.missingProvider 0)).1 (by simp [knownIds]) rfl
  · exact (c8_engine_errors [⟨0, [0], fun _ => .ok 1⟩] [] 0 []
      ⟨5, [], fun _ => .error 3⟩ 3 0 ⟨0, [0], fun _ => .ok 1⟩
      ⟨0, 10, 1, 5, 1, [[some 3]]⟩ [] (.missingProvider 0)).2.1 rfl rfl
  · exact (c8_engine_errors [⟨0, [0], fun _ => .ok 1⟩] [] 0 []
      ⟨5, [], fun _ => .error 3⟩ 3 0 ⟨0, [0], fun _ => .ok 1⟩
      ⟨0, 10, 1, 5, 1, [[some 3]]⟩ [] (.missingProvider 0)).2.2.1 rfl
      (by simp) (by simp [knownIds]) (by simp [requiredList, reachableFrom,
        reachList, expandOnce, neighbors, knownIds, findProvider,
        insertIfAbsent])
  · exact (c8_engine_errors [] [] 0 [] ⟨5, [], fun _ => .error 3⟩ 3 0
      ⟨0, [0], fun _ => .ok 1⟩ ⟨0, 10, 1, 5, 1, [[some 3]]⟩ []
      (.missingProvider 0)).2.2.2.1 rfl
  · exact (c8_engine_errors [] [] 0 [] ⟨5, [], fun _ => .error 3⟩ 3 0
      ⟨0, [0], fun _ => .ok 1⟩ ⟨0, 10, 1, 5, 1, [[some 3]]⟩ [⟨7, 2, 2⟩]
      (.missingProvider 0)).2.2.2.2
      ((c8_engine_errors [] [] 0 [] ⟨5, [], fun _ => .error 3⟩ 3 0
        ⟨0, [0], fun _ => .ok 1⟩ ⟨0, 10, 1, 5, 1, [[some 3]]⟩ []
        (.missingProvider 0)).1 (by simp [knownIds]) rfl)

end Spectroscopy
